import Mathlib

/-!
Shallow embedding of the proposal-writer action layer.

The persisted state is modelled as two lists of records (the two tables
`Proposals` and `ProposalSections` from `db/tables.ts`), kept in insertion
order, which is the natural order of the persistence engine.  Each exposed
action from `src/actions/index.ts` becomes a pure function from a clock value
(`now`), the request context (`Option User`, standing for
`context.locals.user`), the parsed input and the database state, to a triple
of result (`Except Failure`), the new database state, and the trace of
persistence-engine calls the handler issued.  `createProposal` additionally
takes a generated identifier (`genId`, standing for its `crypto.randomUUID()`
call); no other handler generates an id — in particular the section insert
supplies none, and the stored cell is modelled as a nullable id.  The `zod`
input schemas of `defineAction` are modelled as issue lists checked by
wrapper functions (`...Action`) before the handler runs, matching the action
runtime.  JavaScript numbers are modelled as rationals so that the `int()`
refinement of `orderIndex` is expressible.
-/

namespace ProposalWriter

/-- The acting identity attached to a request context (`App.Locals.user`);
only its `id` is consumed by the actions. -/
structure User where
  id : String
deriving Repr, DecidableEq

/-- A row of the `Proposals` table. -/
structure Proposal where
  id : String
  userId : String
  title : String
  clientName : Option String
  projectName : Option String
  currency : Option String
  estimatedValue : Option Rat
  status : Option String
  notes : Option String
  createdAt : Nat
  updatedAt : Nat
deriving Repr, DecidableEq

/-- A row of the `ProposalSections` table.  The id cell is nullable:
`ProposalSections.id` is a text primary key with no default and no NOT NULL
beyond the primary-key declaration, and the section insert supplies no id,
so the stored cell can be null. -/
structure ProposalSection where
  id : Option String
  proposalId : String
  type : Option String
  orderIndex : Rat
  heading : Option String
  content : String
  createdAt : Nat
deriving Repr, DecidableEq

/-- The persisted state: the two tables, in the engine's natural order. -/
structure DB where
  proposals : List Proposal
  sections : List ProposalSection
deriving Repr, DecidableEq

/-- One persistence-engine call issued by a handler.  Every `db.…` statement
in the source emits exactly one event, in program order. -/
inductive DBEvent where
  | selectProposals
  | insertProposals
  | updateProposals
  | deleteProposals
  | selectSections
  | insertSections
  | updateSections
  | deleteSections
deriving Repr, DecidableEq

/-- The typed failures surfaced to callers: schema-validation issues
(rejected by the action runtime before the handler runs), and the two
`ActionError` codes thrown by the handlers. -/
inductive Failure where
  | validation (issues : List String)
  | unauthorized (message : String)
  | notFound (message : String)
deriving Repr, DecidableEq

/-- Result of one action: outcome, resulting state, engine-call trace. -/
abbrev ActionResult (α : Type) := Except Failure α × DB × List DBEvent

/-- `requireUser` from `src/actions/index.ts`: returns the attached identity
or throws `UNAUTHORIZED`. -/
def requireUser (ctx : Option User) : Except Failure User :=
  match ctx with
  | none => .error (.unauthorized "You must be signed in to perform this action.")
  | some user => .ok user

/-- The `where` predicate `and(eq(Proposals.id, id), eq(Proposals.userId, userId))`
used by every proposal-scoped query. -/
def proposalOwnedMatch (id userId : String) (p : Proposal) : Bool :=
  p.id == id && p.userId == userId

/-- Input schema of `createProposal` (field presence; the `min(1)` refinement
on `title` lives in `createProposalIssues`). -/
structure CreateProposalInput where
  id : Option String
  title : String
  clientName : Option String
  projectName : Option String
  currency : Option String
  estimatedValue : Option Rat
  status : Option String
  notes : Option String
deriving Repr, DecidableEq

/-- Handler of `createProposal`: requires a user, inserts a row with the
caller-supplied or generated id, owner set to the acting identity and both
timestamps set to now, and returns the inserted row. -/
def createProposal (now : Nat) (genId : String) (ctx : Option User)
    (input : CreateProposalInput) (st : DB) : ActionResult Proposal :=
  match requireUser ctx with
  | .error e => (.error e, st, [])
  | .ok user =>
    let proposal : Proposal :=
      { id := input.id.getD genId
        userId := user.id
        title := input.title
        clientName := input.clientName
        projectName := input.projectName
        currency := input.currency
        estimatedValue := input.estimatedValue
        status := input.status
        notes := input.notes
        createdAt := now
        updatedAt := now }
    (.ok proposal, { st with proposals := st.proposals ++ [proposal] }, [.insertProposals])

/-- Input schema of `updateProposal`: a mandatory id and the optional mutable
fields; `none` models an omitted (`undefined`) field, which the handler
filters out of the change set. -/
structure UpdateProposalInput where
  id : String
  title : Option String
  clientName : Option String
  projectName : Option String
  currency : Option String
  estimatedValue : Option Rat
  status : Option String
  notes : Option String
deriving Repr, DecidableEq

/-- `Object.keys(updateData).length === 0`: every mutable field was omitted. -/
def UpdateProposalInput.changeSetEmpty (i : UpdateProposalInput) : Bool :=
  i.title.isNone && i.clientName.isNone && i.projectName.isNone && i.currency.isNone &&
    i.estimatedValue.isNone && i.status.isNone && i.notes.isNone

/-- `db.update(Proposals).set({...updateData, updatedAt: new Date()})` applied
to one row: each explicitly supplied field replaces the stored one, omitted
fields are untouched, `updatedAt` becomes now. -/
def applyUpdateData (i : UpdateProposalInput) (now : Nat) (p : Proposal) : Proposal :=
  { p with
    title := i.title.getD p.title
    clientName := i.clientName.or p.clientName
    projectName := i.projectName.or p.projectName
    currency := i.currency.or p.currency
    estimatedValue := i.estimatedValue.or p.estimatedValue
    status := i.status.or p.status
    notes := i.notes.or p.notes
    updatedAt := now }

/-- Handler of `updateProposal`: loads the row scoped to `(id, owner)`, fails
`NOT_FOUND` if absent, returns it unchanged when the change set is empty, and
otherwise applies the change set plus a fresh `updatedAt` and returns the
updated row. -/
def updateProposal (now : Nat) (ctx : Option User) (input : UpdateProposalInput)
    (st : DB) : ActionResult Proposal :=
  match requireUser ctx with
  | .error e => (.error e, st, [])
  | .ok user =>
    match st.proposals.find? (proposalOwnedMatch input.id user.id) with
    | none => (.error (.notFound "Proposal not found."), st, [.selectProposals])
    | some existing =>
      if input.changeSetEmpty then
        (.ok existing, st, [.selectProposals])
      else
        (.ok (applyUpdateData input now existing),
          { st with proposals := st.proposals.map (fun p =>
              if proposalOwnedMatch input.id user.id p then applyUpdateData input now p else p) },
          [.selectProposals, .updateProposals])

/-- Handler of `listProposals`: every row owned by the acting identity, in
natural order. -/
def listProposals (ctx : Option User) (st : DB) : ActionResult (List Proposal) :=
  match requireUser ctx with
  | .error e => (.error e, st, [])
  | .ok user =>
    (.ok (st.proposals.filter (fun p => p.userId == user.id)), st, [.selectProposals])

/-- Handler of `deleteProposal`: deletes the row scoped to `(id, owner)`,
fails `NOT_FOUND` when nothing matched, else returns the deleted row. -/
def deleteProposal (ctx : Option User) (id : String) (st : DB) : ActionResult Proposal :=
  match requireUser ctx with
  | .error e => (.error e, st, [])
  | .ok user =>
    let deletedRows := st.proposals.filter (proposalOwnedMatch id user.id)
    let st2 : DB :=
      { st with proposals := st.proposals.filter (fun p => !(proposalOwnedMatch id user.id p)) }
    match deletedRows.head? with
    | none => (.error (.notFound "Proposal not found."), st2, [.deleteProposals])
    | some deleted => (.ok deleted, st2, [.deleteProposals])

/-- Input schema of `saveSection` (field presence; the `int().positive()` and
`min(1)` refinements live in `saveSectionIssues`). -/
structure SaveSectionInput where
  id : Option String
  proposalId : String
  type : Option String
  orderIndex : Rat
  heading : Option String
  content : String
deriving Repr, DecidableEq

/-- JavaScript truthiness of the optional id string in `if (input.id)`:
`undefined` and the empty string are both falsy. -/
def idTruthy (id : Option String) : Bool :=
  !(id.getD "" == "")

/-- The ORM applying `set(baseValues)` to one stored row: defined entries
overwrite the stored cells, but entries whose value is `undefined` (an
omitted `type` or `heading`) are dropped by the ORM, leaving the stored
cells unchanged; `baseValues` carries no id, so the row id is kept. -/
def applySectionSet (input : SaveSectionInput) (now : Nat) (s : ProposalSection) :
    ProposalSection :=
  { s with
    proposalId := input.proposalId
    type := input.type.or s.type
    orderIndex := input.orderIndex
    heading := input.heading.or s.heading
    content := input.content
    createdAt := now }

/-- The row the engine stores for the id-less `baseValues` insert of
`saveSection`: every supplied column, `createdAt` of now and a null id — the
handler generates no id (`crypto.randomUUID()` appears only in
`createProposal`) and the column has no default. -/
def sectionInsertValues (input : SaveSectionInput) (now : Nat) : ProposalSection :=
  { id := none
    proposalId := input.proposalId
    type := input.type
    orderIndex := input.orderIndex
    heading := input.heading
    content := input.content
    createdAt := now }

/-- Handler of `saveSection`: checks ownership of the parent proposal, then
branches on the truthiness of `input.id`.  With a non-empty id it updates
the section carrying that id (failing `NOT_FOUND` when it is absent or
parented elsewhere); with no id — or the falsy empty id — it inserts the
id-less `baseValues` row. -/
def saveSection (now : Nat) (ctx : Option User)
    (input : SaveSectionInput) (st : DB) : ActionResult ProposalSection :=
  match requireUser ctx with
  | .error e => (.error e, st, [])
  | .ok user =>
    match st.proposals.find? (proposalOwnedMatch input.proposalId user.id) with
    | none => (.error (.notFound "Proposal not found."), st, [.selectProposals])
    | some _proposal =>
      if idTruthy input.id then
        match st.sections.find? (fun s => s.id == some (input.id.getD "")) with
        | none =>
          (.error (.notFound "Section not found."), st, [.selectProposals, .selectSections])
        | some existing =>
          if existing.proposalId == input.proposalId then
            (.ok (applySectionSet input now existing),
              { st with sections := st.sections.map (fun s =>
                  if s.id == some (input.id.getD "") then applySectionSet input now s
                  else s) },
              [.selectProposals, .selectSections, .updateSections])
          else
            (.error (.notFound "Section not found."), st, [.selectProposals, .selectSections])
      else
        (.ok (sectionInsertValues input now),
          { st with sections := st.sections ++ [sectionInsertValues input now] },
          [.selectProposals, .insertSections])

/-- Input schema of `deleteSection`. -/
structure DeleteSectionInput where
  id : String
  proposalId : String
deriving Repr, DecidableEq

/-- The `where` predicate of the `deleteSection` delete statement. -/
def sectionDeleteMatch (input : DeleteSectionInput) (s : ProposalSection) : Bool :=
  s.id == some input.id && s.proposalId == input.proposalId

/-- Handler of `deleteSection`: checks ownership of the parent proposal, then
deletes the section scoped to `(id, proposalId)`, failing `NOT_FOUND` when
nothing matched. -/
def deleteSection (ctx : Option User) (input : DeleteSectionInput) (st : DB) :
    ActionResult ProposalSection :=
  match requireUser ctx with
  | .error e => (.error e, st, [])
  | .ok user =>
    match st.proposals.find? (proposalOwnedMatch input.proposalId user.id) with
    | none => (.error (.notFound "Proposal not found."), st, [.selectProposals])
    | some _proposal =>
      let deletedRows := st.sections.filter (sectionDeleteMatch input)
      let st2 : DB :=
        { st with sections := st.sections.filter (fun s => !(sectionDeleteMatch input s)) }
      match deletedRows.head? with
      | none =>
        (.error (.notFound "Section not found."), st2, [.selectProposals, .deleteSections])
      | some deleted => (.ok deleted, st2, [.selectProposals, .deleteSections])

/-- Handler of `getProposalWithSections`: loads the proposal scoped to the
acting identity, fails `NOT_FOUND` if absent, then returns it with every
section referencing it. -/
def getProposalWithSections (ctx : Option User) (id : String) (st : DB) :
    ActionResult (Proposal × List ProposalSection) :=
  match requireUser ctx with
  | .error e => (.error e, st, [])
  | .ok user =>
    match st.proposals.find? (proposalOwnedMatch id user.id) with
    | none => (.error (.notFound "Proposal not found."), st, [.selectProposals])
    | some proposal =>
      (.ok (proposal, st.sections.filter (fun s => s.proposalId == id)), st,
        [.selectProposals, .selectSections])

/-- Issues raised by the `createProposal` input schema:
`title: z.string().min(1, "Title is required")`. -/
def createProposalIssues (i : CreateProposalInput) : List String :=
  if 1 ≤ i.title.length then [] else ["Title is required"]

/-- Issues raised by the `updateProposal` input schema:
`title: z.string().min(1).optional()`. -/
def updateProposalIssues (i : UpdateProposalInput) : List String :=
  match i.title with
  | some t => if 1 ≤ t.length then [] else ["String must contain at least 1 character(s)"]
  | none => []

/-- Issues raised by the `saveSection` input schema:
`orderIndex: z.number().int().positive()` and
`content: z.string().min(1, "Content is required")`. -/
def saveSectionIssues (i : SaveSectionInput) : List String :=
  (if i.orderIndex.isInt then [] else ["Expected integer, received float"]) ++
    (if 0 < i.orderIndex then [] else ["Number must be greater than 0"]) ++
      (if 1 ≤ i.content.length then [] else ["Content is required"])

/-- The `createProposal` action as exposed by the runtime: schema validation
first, then the handler. -/
def createProposalAction (now : Nat) (genId : String) (ctx : Option User)
    (input : CreateProposalInput) (st : DB) : ActionResult Proposal :=
  if createProposalIssues input = [] then createProposal now genId ctx input st
  else (.error (.validation (createProposalIssues input)), st, [])

/-- The `updateProposal` action as exposed by the runtime: schema validation
first, then the handler. -/
def updateProposalAction (now : Nat) (ctx : Option User)
    (input : UpdateProposalInput) (st : DB) : ActionResult Proposal :=
  if updateProposalIssues input = [] then updateProposal now ctx input st
  else (.error (.validation (updateProposalIssues input)), st, [])

/-- The `saveSection` action as exposed by the runtime: schema validation
first, then the handler. -/
def saveSectionAction (now : Nat) (ctx : Option User)
    (input : SaveSectionInput) (st : DB) : ActionResult ProposalSection :=
  if saveSectionIssues input = [] then saveSection now ctx input st
  else (.error (.validation (saveSectionIssues input)), st, [])

/-- Invariant of the `Proposals` table: every persisted title is non-empty. -/
def titlesNonEmpty (st : DB) : Prop :=
  ∀ p ∈ st.proposals, p.title ≠ ""

/-! ### Concrete fixtures used by the witness theorems -/

/-- A sample acting identity. -/
def uA : User := ⟨"user-a"⟩

/-- A sample proposal owned by `uA`. -/
def proposalA : Proposal :=
  { id := "p1", userId := "user-a", title := "Website proposal", clientName := none
    projectName := none, currency := none, estimatedValue := none, status := none
    notes := none, createdAt := 0, updatedAt := 0 }

/-- A sample section parented to a proposal other than `proposalA`. -/
def sectionB : ProposalSection :=
  { id := some "s1", proposalId := "p2", type := none, orderIndex := 1, heading := none
    content := "Intro text", createdAt := 0 }

/-- A sample database holding `proposalA` and `sectionB`. -/
def stA : DB := ⟨[proposalA], [sectionB]⟩

/-- An `updateProposal` input for `proposalA` with every mutable field omitted. -/
def uiEmpty : UpdateProposalInput :=
  { id := "p1", title := none, clientName := none, projectName := none, currency := none
    estimatedValue := none, status := none, notes := none }

/-! ### Claims -/

/-- C5: every exposed operation, when the request context carries no resolved
identity, fails `Unauthorized`, leaves the persisted state untouched and
issues no persistence-engine call at all — the identity check short-circuits
before any data access. -/
theorem unauthorizedShortCircuitsAll (now : Nat) (genId : String) (st : DB)
    (ci : CreateProposalInput) (ui : UpdateProposalInput) (si : SaveSectionInput)
    (di : DeleteSectionInput) (pid gid : String) :
    (∃ m, createProposal now genId none ci st = (.error (.unauthorized m), st, [])) ∧
    (∃ m, updateProposal now none ui st = (.error (.unauthorized m), st, [])) ∧
    (∃ m, listProposals none st = (.error (.unauthorized m), st, [])) ∧
    (∃ m, deleteProposal none pid st = (.error (.unauthorized m), st, [])) ∧
    (∃ m, saveSection now none si st = (.error (.unauthorized m), st, [])) ∧
    (∃ m, deleteSection none di st = (.error (.unauthorized m), st, [])) ∧
    (∃ m, getProposalWithSections none gid st = (.error (.unauthorized m), st, [])) := by
  exact ⟨⟨_, rfl⟩, ⟨_, rfl⟩, ⟨_, rfl⟩, ⟨_, rfl⟩, ⟨_, rfl⟩, ⟨_, rfl⟩, ⟨_, rfl⟩⟩

/-- A `saveSection` input supplying the falsy empty id. -/
def siEmptyId : SaveSectionInput :=
  { id := some "", proposalId := "p1", type := none, orderIndex := 1, heading := none
    content := "Intro text" }

/-- C2 counterexample: the claim quantifies over every call that supplies an
id, but the supplied empty id is falsy in the source's `if (input.id)`, so
the call takes the insert path: at this input — an id `""` that no stored
section carries — the operation succeeds and mutates the store instead of
failing `NotFound`. -/
theorem saveSectionEmptyIdMutates :
    siEmptyId.id = some "" ∧
    (∀ s ∈ stA.sections, s.id ≠ some "") ∧
    ∃ sec st2,
      saveSection 7 (some uA) siEmptyId stA =
        (.ok sec, st2, [.selectProposals, .insertSections]) ∧
      st2 ≠ stA :=
  ⟨rfl, by decide,
    sectionInsertValues siEmptyId 7,
    { stA with sections := stA.sections ++ [sectionInsertValues siEmptyId 7] },
    rfl, by decide⟩

/-- C2 (amended: the supplied id must be non-empty, since the empty id is
falsy and takes the insert path): a `saveSection` call that supplies a
non-empty id, when no section with that id exists or the stored section is
parented to a different proposal than the input declares, fails `NotFound`
and performs no mutation: the returned state is exactly the state before
the call. -/
theorem saveSectionStaleIdRejected (now : Nat) (u : User)
    (input : SaveSectionInput) (sid : String) (st : DB)
    (hid : input.id = some sid) (hsid : sid ≠ "")
    (hmis : st.sections.find? (fun x => x.id == some sid) = none ∨
      ∃ s, st.sections.find? (fun x => x.id == some sid) = some s ∧
        s.proposalId ≠ input.proposalId) :
    ∃ m tr, saveSection now (some u) input st = (.error (.notFound m), st, tr) := by
  have htr : idTruthy (some sid) = true := by
    unfold idTruthy
    simpa using hsid
  unfold saveSection requireUser
  cases hp : st.proposals.find? (proposalOwnedMatch input.proposalId u.id) with
  | none => simp [hp]
  | some parent =>
    rcases hmis with hnone | ⟨s, hs, hne⟩
    · simp [hp, htr, hid, hnone]
    · have hbeq : (s.proposalId == input.proposalId) = false := by
        simpa using hne
      simp [hp, htr, hid, hs, hbeq]

/-- C2 witness: on the concrete store `stA`, a save that targets section
`s1` with a non-empty id while declaring parent `p1` (the stored parent is
`p2`) fails `NotFound` and leaves the state untouched. -/
theorem saveSectionStaleIdRejected_witness :
    ∃ m tr,
      saveSection 7 (some uA)
        { id := some "s1", proposalId := "p1", type := none, orderIndex := 1
          heading := none, content := "Intro text" } stA =
        (.error (.notFound m), stA, tr) :=
  saveSectionStaleIdRejected 7 uA _ "s1" stA rfl (by decide)
    (Or.inr ⟨sectionB, by decide, by decide⟩)

/-- C3: an `updateProposal` call by the owner of an existing proposal in
which every mutable field is omitted succeeds, returns the stored record
exactly as it is, and leaves the state untouched — in particular `updatedAt`
is not advanced. -/
theorem updateEmptyChangeSetIsNoop (now : Nat) (u : User) (input : UpdateProposalInput)
    (st : DB) (existing : Proposal)
    (hfind : st.proposals.find? (proposalOwnedMatch input.id u.id) = some existing)
    (hempty : input.changeSetEmpty = true) :
    updateProposal now (some u) input st = (.ok existing, st, [.selectProposals]) := by
  unfold updateProposal requireUser
  simp [hfind, hempty]

/-- C3 witness: updating `proposalA` as its owner with every field omitted
returns the stored record and the unchanged store. -/
theorem updateEmptyChangeSetIsNoop_witness :
    updateProposal 7 (some uA) uiEmpty stA = (.ok proposalA, stA, [.selectProposals]) :=
  updateEmptyChangeSetIsNoop 7 uA uiEmpty stA proposalA (by decide) (by decide)

/-- An `updateProposal` input for `proposalA` supplying only a new title. -/
def uiTitle : UpdateProposalInput :=
  { id := "p1", title := some "Renamed proposal", clientName := none, projectName := none
    currency := none, estimatedValue := none, status := none, notes := none }

/-- C4: an `updateProposal` call by the owner of an existing proposal that
supplies at least one mutable field persists and returns the prior record
with exactly the supplied fields replaced, `updatedAt` refreshed to now (a
value at least the previous `updatedAt` under a monotone clock), and `id`,
owner, `createdAt` and every omitted field unchanged. -/
theorem updateAppliesSuppliedFields (now : Nat) (u : User) (input : UpdateProposalInput)
    (st : DB) (existing : Proposal)
    (hfind : st.proposals.find? (proposalOwnedMatch input.id u.id) = some existing)
    (hne : input.changeSetEmpty = false)
    (hclock : existing.updatedAt ≤ now) :
    ∃ r st2,
      updateProposal now (some u) input st = (.ok r, st2, [.selectProposals, .updateProposals]) ∧
      r.id = existing.id ∧ r.userId = existing.userId ∧ r.createdAt = existing.createdAt ∧
      r.updatedAt = now ∧ existing.updatedAt ≤ r.updatedAt ∧
      r.title = input.title.getD existing.title ∧
      r.clientName = input.clientName.or existing.clientName ∧
      r.projectName = input.projectName.or existing.projectName ∧
      r.currency = input.currency.or existing.currency ∧
      r.estimatedValue = input.estimatedValue.or existing.estimatedValue ∧
      r.status = input.status.or existing.status ∧
      r.notes = input.notes.or existing.notes ∧
      r ∈ st2.proposals := by
  have hmem : existing ∈ st.proposals := List.mem_of_find?_eq_some hfind
  have hmatch : proposalOwnedMatch input.id u.id existing = true := List.find?_some hfind
  refine ⟨applyUpdateData input now existing,
    { st with proposals := st.proposals.map (fun p =>
        if proposalOwnedMatch input.id u.id p then applyUpdateData input now p else p) },
    ?_, rfl, rfl, rfl, rfl, hclock, rfl, rfl, rfl, rfl, rfl, rfl, rfl, ?_⟩
  · unfold updateProposal requireUser
    simp [hfind, hne]
  · have hmap := List.mem_map_of_mem
      (fun p => if proposalOwnedMatch input.id u.id p then applyUpdateData input now p else p)
      hmem
    simpa [hmatch] using hmap

/-- C4 witness: renaming `proposalA` as its owner yields the record with the
new title, untouched other fields and `updatedAt` advanced to the clock. -/
theorem updateAppliesSuppliedFields_witness :
    ∃ r st2,
      updateProposal 7 (some uA) uiTitle stA = (.ok r, st2, [.selectProposals, .updateProposals]) ∧
      r.id = proposalA.id ∧ r.userId = proposalA.userId ∧ r.createdAt = proposalA.createdAt ∧
      r.updatedAt = 7 ∧ proposalA.updatedAt ≤ r.updatedAt ∧
      r.title = uiTitle.title.getD proposalA.title ∧
      r.clientName = uiTitle.clientName.or proposalA.clientName ∧
      r.projectName = uiTitle.projectName.or proposalA.projectName ∧
      r.currency = uiTitle.currency.or proposalA.currency ∧
      r.estimatedValue = uiTitle.estimatedValue.or proposalA.estimatedValue ∧
      r.status = uiTitle.status.or proposalA.status ∧
      r.notes = uiTitle.notes.or proposalA.notes ∧
      r ∈ st2.proposals :=
  updateAppliesSuppliedFields 7 uA uiTitle stA proposalA (by decide) (by decide) (by decide)

/-- A row matched by a proposal-scoped `where` clause carries the scoping
user id as its owner. -/
theorem proposalOwnedMatch_userId {id uid : String} {p : Proposal}
    (h : proposalOwnedMatch id uid p = true) : p.userId = uid := by
  unfold proposalOwnedMatch at h
  simp only [Bool.and_eq_true, beq_iff_eq] at h
  exact h.2

/-- Every proposal in a successful `listProposals` answer is owned by the
acting identity. -/
theorem listProposals_ok_owned {u : User} {st : DB} {ps : List Proposal} {st2 : DB}
    {tr : List DBEvent} (h : listProposals (some u) st = (.ok ps, st2, tr)) :
    ∀ q ∈ ps, q.userId = u.id := by
  unfold listProposals requireUser at h
  simp only [Prod.mk.injEq, Except.ok.injEq] at h
  obtain ⟨h1, -, -⟩ := h
  intro q hq
  rw [← h1] at hq
  rw [List.mem_filter] at hq
  simpa using hq.2

/-- The proposal in a successful `getProposalWithSections` answer is owned by
the acting identity. -/
theorem getProposalWithSections_ok_owned {u : User} {pid : String} {st : DB}
    {r : Proposal × List ProposalSection} {st2 : DB} {tr : List DBEvent}
    (h : getProposalWithSections (some u) pid st = (.ok r, st2, tr)) :
    r.1.userId = u.id := by
  unfold getProposalWithSections requireUser at h
  cases hp : st.proposals.find? (proposalOwnedMatch pid u.id) with
  | none => simp [hp] at h
  | some q =>
    simp only [hp, Prod.mk.injEq, Except.ok.injEq] at h
    obtain ⟨h1, -, -⟩ := h
    rw [← h1]
    exact proposalOwnedMatch_userId (List.find?_some hp)

/-- An authenticated `getProposalWithSections` call can only fail `NotFound`. -/
theorem getProposalWithSections_error_notFound {u : User} {pid : String} {st : DB}
    {e : Failure} {st2 : DB} {tr : List DBEvent}
    (h : getProposalWithSections (some u) pid st = (.error e, st2, tr)) :
    ∃ m, e = .notFound m := by
  unfold getProposalWithSections requireUser at h
  cases hp : st.proposals.find? (proposalOwnedMatch pid u.id) with
  | none =>
    simp only [hp, Prod.mk.injEq, Except.error.injEq] at h
    exact ⟨_, h.1.symm⟩
  | some q => simp [hp] at h

/-- The proposal returned by a successful `updateProposal` call is owned by
the acting identity. -/
theorem updateProposal_ok_userId {now : Nat} {u : User} {ui : UpdateProposalInput}
    {st : DB} {r : Proposal} {st2 : DB} {tr : List DBEvent}
    (h : updateProposal now (some u) ui st = (.ok r, st2, tr)) : r.userId = u.id := by
  unfold updateProposal requireUser at h
  cases hp : st.proposals.find? (proposalOwnedMatch ui.id u.id) with
  | none => simp [hp] at h
  | some ex =>
    have hex : ex.userId = u.id := proposalOwnedMatch_userId (List.find?_some hp)
    by_cases hce : ui.changeSetEmpty
    · simp only [hp, hce, if_true, Prod.mk.injEq, Except.ok.injEq] at h
      obtain ⟨h1, -, -⟩ := h
      rw [← h1]
      exact hex
    · simp only [hp, Bool.not_eq_true] at hce
      simp only [hp, hce, Bool.false_eq_true, if_false, Prod.mk.injEq, Except.ok.injEq] at h
      obtain ⟨h1, -, -⟩ := h
      rw [← h1]
      exact hex

/-- An authenticated `updateProposal` call can only fail `NotFound`. -/
theorem updateProposal_error_notFound {now : Nat} {u : User} {ui : UpdateProposalInput}
    {st : DB} {e : Failure} {st2 : DB} {tr : List DBEvent}
    (h : updateProposal now (some u) ui st = (.error e, st2, tr)) :
    ∃ m, e = .notFound m := by
  unfold updateProposal requireUser at h
  cases hp : st.proposals.find? (proposalOwnedMatch ui.id u.id) with
  | none =>
    simp only [hp, Prod.mk.injEq, Except.error.injEq] at h
    exact ⟨_, h.1.symm⟩
  | some ex =>
    by_cases hce : ui.changeSetEmpty
    · simp [hp, hce] at h
    · simp only [Bool.not_eq_true] at hce
      simp [hp, hce] at h

/-- The proposal returned by a successful `deleteProposal` call is owned by
the acting identity. -/
theorem deleteProposal_ok_userId {u : User} {pid : String} {st : DB} {r : Proposal}
    {st2 : DB} {tr : List DBEvent}
    (h : deleteProposal (some u) pid st = (.ok r, st2, tr)) : r.userId = u.id := by
  unfold deleteProposal requireUser at h
  cases hd : (st.proposals.filter (proposalOwnedMatch pid u.id)).head? with
  | none => simp [hd] at h
  | some d =>
    have hfind : st.proposals.find? (proposalOwnedMatch pid u.id) = some d := by
      rw [← List.filter_head?]
      exact hd
    simp only [hd, Prod.mk.injEq, Except.ok.injEq] at h
    obtain ⟨h1, -, -⟩ := h
    rw [← h1]
    exact proposalOwnedMatch_userId (List.find?_some hfind)

/-- An authenticated `deleteProposal` call can only fail `NotFound`. -/
theorem deleteProposal_error_notFound {u : User} {pid : String} {st : DB}
    {e : Failure} {st2 : DB} {tr : List DBEvent}
    (h : deleteProposal (some u) pid st = (.error e, st2, tr)) :
    ∃ m, e = .notFound m := by
  unfold deleteProposal requireUser at h
  cases hd : (st.proposals.filter (proposalOwnedMatch pid u.id)).head? with
  | none =>
    simp only [hd, Prod.mk.injEq, Except.error.injEq] at h
    exact ⟨_, h.1.symm⟩
  | some d => simp [hd] at h

/-- C1: a proposal owned by one identity is never returned to a different
acting identity: `listProposals` omits it, and `getProposalWithSections`,
`updateProposal` and `deleteProposal` never hand it back; whenever one of
those three fails it presents `NotFound`, never a distinct forbidden
signal. -/
theorem ownerIsolation (u1 u2 : User) (hne : u1 ≠ u2) (st : DB) (p : Proposal)
    (_hmem : p ∈ st.proposals) (hown : p.userId = u1.id)
    (now : Nat) (ui : UpdateProposalInput) (pid : String) :
    (∀ ps st2 tr, listProposals (some u2) st = (.ok ps, st2, tr) → p ∉ ps) ∧
    (∀ r st2 tr, getProposalWithSections (some u2) pid st = (.ok r, st2, tr) → r.1 ≠ p) ∧
    (∀ e st2 tr, getProposalWithSections (some u2) pid st = (.error e, st2, tr) →
      ∃ m, e = .notFound m) ∧
    (∀ r st2 tr, updateProposal now (some u2) ui st = (.ok r, st2, tr) → r ≠ p) ∧
    (∀ e st2 tr, updateProposal now (some u2) ui st = (.error e, st2, tr) →
      ∃ m, e = .notFound m) ∧
    (∀ r st2 tr, deleteProposal (some u2) pid st = (.ok r, st2, tr) → r ≠ p) ∧
    (∀ e st2 tr, deleteProposal (some u2) pid st = (.error e, st2, tr) →
      ∃ m, e = .notFound m) := by
  have hid2 : p.userId ≠ u2.id := by
    rw [hown]
    intro h
    apply hne
    cases u1
    cases u2
    simp_all
  refine ⟨?_, ?_, ?_, ?_, ?_, ?_, ?_⟩
  · intro ps st2 tr h hpmem
    exact hid2 (listProposals_ok_owned h p hpmem)
  · intro r st2 tr h hrp
    apply hid2
    rw [← hrp]
    exact getProposalWithSections_ok_owned h
  · intro e st2 tr h
    exact getProposalWithSections_error_notFound h
  · intro r st2 tr h hrp
    apply hid2
    rw [← hrp]
    exact updateProposal_ok_userId h
  · intro e st2 tr h
    exact updateProposal_error_notFound h
  · intro r st2 tr h hrp
    apply hid2
    rw [← hrp]
    exact deleteProposal_ok_userId h
  · intro e st2 tr h
    exact deleteProposal_error_notFound h

/-- A sample section parented to `proposalA`. -/
def sectionA : ProposalSection :=
  { id := some "s0", proposalId := "p1", type := some "scope", orderIndex := 2, heading := none
    content := "Scope text", createdAt := 0 }

/-- A sample database holding `proposalA` and sections of both parents. -/
def stC : DB := ⟨[proposalA], [sectionA, sectionB]⟩

/-- C6: a `deleteProposal` call by the owner of an existing proposal removes
and returns the proposal record, but deletes or modifies no section: the
sections table is untouched, so every section referencing the deleted
proposal survives — no cascade delete. -/
theorem deleteProposalNoCascade (u : User) (pid : String) (st : DB) (p : Proposal)
    (hfind : st.proposals.find? (proposalOwnedMatch pid u.id) = some p) :
    ∃ st2,
      deleteProposal (some u) pid st = (.ok p, st2, [.deleteProposals]) ∧
      p ∉ st2.proposals ∧
      st2.sections = st.sections ∧
      ∀ s ∈ st.sections, s.proposalId = pid → s ∈ st2.sections := by
  have hmatch : proposalOwnedMatch pid u.id p = true := List.find?_some hfind
  have hd : (st.proposals.filter (proposalOwnedMatch pid u.id)).head? = some p := by
    rw [List.filter_head?]
    exact hfind
  refine ⟨{ st with proposals :=
      st.proposals.filter (fun q => !(proposalOwnedMatch pid u.id q)) }, ?_, ?_, rfl, ?_⟩
  · unfold deleteProposal requireUser
    simp [hd]
  · intro hmem
    rw [List.mem_filter] at hmem
    simp [hmatch] at hmem
  · intro s hs _
    exact hs

/-- C6 witness: deleting `proposalA` as its owner returns it, removes it,
and leaves both sections — including `sectionA`, which references it — in
place. -/
theorem deleteProposalNoCascade_witness :
    ∃ st2,
      deleteProposal (some uA) "p1" stC = (.ok proposalA, st2, [.deleteProposals]) ∧
      proposalA ∉ st2.proposals ∧
      st2.sections = stC.sections ∧
      ∀ s ∈ stC.sections, s.proposalId = "p1" → s ∈ st2.sections :=
  deleteProposalNoCascade uA "p1" stC proposalA (by decide)

/-- C7: evaluation of the insert path at the claim's input.  The handler
passes the parent-ownership check and inserts the id-less `baseValues` row:
the supplied fields and `createdAt` of now are stored and returned, but the
section carries no generated id at all — its stored id is null, since
nothing in `saveSection` generates one (`crypto.randomUUID()` appears only
in `createProposal`) and the column has no default.  The claimed "generated
unique id" does not exist in the program. -/
theorem saveSectionInsertStoresNoId :
    ∃ sec st2,
      saveSection 7 (some uA)
        { id := none, proposalId := "p1", type := some "intro", orderIndex := 1
          heading := none, content := "Intro text" } stC =
        (.ok sec, st2, [.selectProposals, .insertSections]) ∧
      sec.proposalId = "p1" ∧ sec.type = some "intro" ∧
      sec.orderIndex = 1 ∧ sec.heading = none ∧
      sec.content = "Intro text" ∧ sec.createdAt = 7 ∧
      st2.sections = stC.sections ++ [sec] ∧
      sec.id = none :=
  ⟨_, _, rfl, rfl, rfl, rfl, rfl, rfl, rfl, rfl, rfl⟩

/-- A `saveSection` update input for `sectionA` omitting `type` and
`heading`. -/
def siResave : SaveSectionInput :=
  { id := some "s0", proposalId := "p1", type := none, orderIndex := 3, heading := none
    content := "New scope" }

/-- C8 counterexample: re-saving `sectionA` (stored type `"scope"`) while
omitting `type` keeps the stored value: the ORM drops the `undefined`
entries of `baseValues`, so the omitted optional field is not included in
the overwrite — the returned and persisted `type` is still `"scope"`, not
the cleared value the claim predicts. -/
theorem saveSectionOmittedFieldKept :
    siResave.type = none ∧
    ∃ r st2,
      saveSection 9 (some uA) siResave stC =
        (.ok r, st2, [.selectProposals, .selectSections, .updateSections]) ∧
      r.type = some "scope" :=
  ⟨rfl, _, _, rfl, rfl⟩

/-- C8 (amended: the supplied id must be non-empty, and omitted optional
fields are left unchanged rather than included in the overwrite, since the
ORM drops `undefined` entries of `set`): a `saveSection` call that supplies
the non-empty id of an existing section whose stored parent equals the
declared parent, under an owned parent, overwrites the section's
`orderIndex` and `content` with the supplied values and its `type` and
`heading` with the supplied values when present — keeping the stored ones
when omitted — re-stamps `createdAt` to now, keeps the row id, and returns
the updated section. -/
theorem saveSectionUpdateOverwrites (now : Nat) (u : User)
    (input : SaveSectionInput) (sid : String) (st : DB) (parent : Proposal)
    (existing : ProposalSection)
    (hid : input.id = some sid) (hsid : sid ≠ "")
    (hparent : st.proposals.find? (proposalOwnedMatch input.proposalId u.id) = some parent)
    (hsec : st.sections.find? (fun s => s.id == some sid) = some existing)
    (hmatch : existing.proposalId = input.proposalId) :
    ∃ r st2,
      saveSection now (some u) input st =
        (.ok r, st2, [.selectProposals, .selectSections, .updateSections]) ∧
      r.id = existing.id ∧ r.proposalId = input.proposalId ∧
      r.type = input.type.or existing.type ∧
      r.orderIndex = input.orderIndex ∧
      r.heading = input.heading.or existing.heading ∧
      r.content = input.content ∧ r.createdAt = now ∧
      r ∈ st2.sections ∧ st2.proposals = st.proposals := by
  have htr : idTruthy (some sid) = true := by
    unfold idTruthy
    simpa using hsid
  have hsmem : existing ∈ st.sections := List.mem_of_find?_eq_some hsec
  have hwid := List.find?_some hsec
  have hbeq : (existing.proposalId == input.proposalId) = true := by simp [hmatch]
  refine ⟨applySectionSet input now existing,
    { st with sections := st.sections.map (fun s =>
        if s.id == some (input.id.getD "") then applySectionSet input now s else s) },
    ?_, rfl, rfl, rfl, rfl, rfl, rfl, rfl, ?_, rfl⟩
  · unfold saveSection requireUser
    simp [hparent, htr, hid, hsec, hbeq]
  · have hmap := List.mem_map_of_mem
      (fun s => if s.id == some (input.id.getD "") then applySectionSet input now s else s)
      hsmem
    simpa [hid, hwid] using hmap

/-- C8 witness: re-saving `sectionA` under its own parent overwrites
`orderIndex` and `content`, keeps the omitted `type` and `heading` as
stored, keeps the row id and re-stamps `createdAt`. -/
theorem saveSectionUpdateOverwrites_witness :
    ∃ r st2,
      saveSection 9 (some uA) siResave stC =
        (.ok r, st2, [.selectProposals, .selectSections, .updateSections]) ∧
      r.id = sectionA.id ∧ r.proposalId = siResave.proposalId ∧
      r.type = siResave.type.or sectionA.type ∧
      r.orderIndex = siResave.orderIndex ∧
      r.heading = siResave.heading.or sectionA.heading ∧
      r.content = siResave.content ∧ r.createdAt = 9 ∧
      r ∈ st2.sections ∧ st2.proposals = stC.proposals :=
  saveSectionUpdateOverwrites 9 uA siResave "s0" stC proposalA sectionA rfl (by decide)
    (by decide) (by decide) (by decide)

/-- A second sample identity, distinct from `uA`. -/
def uB : User := ⟨"user-b"⟩

/-- C1 witness: on the concrete store `stA`, the proposal owned by `uA` is
invisible to `uB` through all four read/write operations, which answer
`NotFound` where they fail. -/
theorem ownerIsolation_witness :
    uA ≠ uB ∧ proposalA ∈ stA.proposals ∧ proposalA.userId = uA.id ∧
    ((∀ ps st2 tr, listProposals (some uB) stA = (.ok ps, st2, tr) → proposalA ∉ ps) ∧
      (∀ r st2 tr,
        getProposalWithSections (some uB) "p1" stA = (.ok r, st2, tr) → r.1 ≠ proposalA) ∧
      (∀ e st2 tr, getProposalWithSections (some uB) "p1" stA = (.error e, st2, tr) →
        ∃ m, e = .notFound m) ∧
      (∀ r st2 tr, updateProposal 7 (some uB) uiTitle stA = (.ok r, st2, tr) →
        r ≠ proposalA) ∧
      (∀ e st2 tr, updateProposal 7 (some uB) uiTitle stA = (.error e, st2, tr) →
        ∃ m, e = .notFound m) ∧
      (∀ r st2 tr, deleteProposal (some uB) "p1" stA = (.ok r, st2, tr) → r ≠ proposalA) ∧
      (∀ e st2 tr, deleteProposal (some uB) "p1" stA = (.error e, st2, tr) →
        ∃ m, e = .notFound m)) :=
  ⟨by decide, by decide, by decide,
    ownerIsolation uA uB (by decide) stA proposalA (by decide) (by decide) 7 uiTitle "p1"⟩

/-- A `saveSection` input rejected by the schema: `orderIndex` is zero. -/
def siBad : SaveSectionInput :=
  { id := none, proposalId := "p1", type := none, orderIndex := 0, heading := none
    content := "Intro text" }

/-- C9: a `saveSection` call whose `orderIndex` is non-positive or not an
integer, or whose `content` is empty, is rejected with a `Validation`
failure before any persistence-engine call executes — the state is
untouched and the trace is empty; and any call with `orderIndex = 1` and
non-empty `content` passes this validation and reaches the handler. -/
theorem saveSectionValidationGate (now : Nat) (ctx : Option User)
    (input : SaveSectionInput) (st : DB)
    (hbad : input.orderIndex.isInt = false ∨ input.orderIndex ≤ 0 ∨ input.content = "") :
    (∃ issues, saveSectionAction now ctx input st =
      (.error (.validation issues), st, [])) ∧
    ∀ j : SaveSectionInput, j.orderIndex = 1 → j.content ≠ "" →
      saveSectionAction now ctx j st = saveSection now ctx j st := by
  have hne : saveSectionIssues input ≠ [] := by
    unfold saveSectionIssues
    rcases hbad with hb | hb | hb
    · rw [hb]
      simp
    · rw [if_neg (not_lt.mpr hb)]
      simp
    · rw [hb, if_neg (by decide : ¬ 1 ≤ String.length "")]
      simp
  constructor
  · refine ⟨saveSectionIssues input, ?_⟩
    unfold saveSectionAction
    rw [if_neg hne]
  · intro j h1 h2
    have hlen : 1 ≤ j.content.length := by
      cases hc : j.content with
      | mk data =>
        cases data with
        | nil => exact absurd hc h2
        | cons c cs => simp [String.length]
    have hv : saveSectionIssues j = [] := by
      unfold saveSectionIssues
      rw [h1, if_pos (by decide : (1 : Rat).isInt = true),
        if_pos (by decide : (0 : Rat) < 1), if_pos hlen]
      rfl
    unfold saveSectionAction
    rw [if_pos hv]

/-- C9 witness: the concrete call with `orderIndex = 0` is rejected with a
`Validation` failure, no state change and no engine call; a call with
`orderIndex = 1` and non-empty content reaches the handler. -/
theorem saveSectionValidationGate_witness :
    (∃ issues, saveSectionAction 7 (some uA) siBad stA =
      (.error (.validation issues), stA, [])) ∧
    ∀ j : SaveSectionInput, j.orderIndex = 1 → j.content ≠ "" →
      saveSectionAction 7 (some uA) j stA = saveSection 7 (some uA) j stA :=
  saveSectionValidationGate 7 (some uA) siBad stA (Or.inr (Or.inl (by decide)))

/-- A string of positive length is not the empty string. -/
theorem string_len_pos_ne_empty {s : String} (h : 1 ≤ s.length) : s ≠ "" := by
  intro h0
  rw [h0] at h
  exact absurd h (by decide)

/-- `titlesNonEmpty` depends only on the proposals table. -/
theorem titlesNonEmpty_of_proposals_eq {st st2 : DB} (h : st2.proposals = st.proposals)
    (hinv : titlesNonEmpty st) : titlesNonEmpty st2 := by
  intro p hp
  rw [h] at hp
  exact hinv p hp

/-- `saveSection` never writes the proposals table. -/
theorem saveSection_proposals_eq (now : Nat) (ctx : Option User)
    (si : SaveSectionInput) (st : DB) :
    ((saveSection now ctx si st).2.1).proposals = st.proposals := by
  cases ctx with
  | none => rfl
  | some u =>
    cases hf : st.proposals.find? (proposalOwnedMatch si.proposalId u.id) with
    | none => simp [saveSection, requireUser, hf]
    | some parent =>
      by_cases ht : idTruthy si.id = true
      · cases hs : st.sections.find? (fun s => s.id == some (si.id.getD "")) with
        | none => simp [saveSection, requireUser, hf, ht, hs]
        | some ex =>
          by_cases hm : (ex.proposalId == si.proposalId) = true
          · simp [saveSection, requireUser, hf, ht, hs, hm]
          · simp [saveSection, requireUser, hf, ht, hs, hm]
      · simp [saveSection, requireUser, hf, ht]

/-- `deleteSection` never writes the proposals table. -/
theorem deleteSection_proposals_eq (ctx : Option User) (di : DeleteSectionInput) (st : DB) :
    ((deleteSection ctx di st).2.1).proposals = st.proposals := by
  cases ctx with
  | none => rfl
  | some u =>
    cases hf : st.proposals.find? (proposalOwnedMatch di.proposalId u.id) with
    | none => simp [deleteSection, requireUser, hf]
    | some parent =>
      cases hd : (st.sections.filter (sectionDeleteMatch di)).head? with
      | none => simp [deleteSection, requireUser, hf, hd]
      | some d => simp [deleteSection, requireUser, hf, hd]

/-- `getProposalWithSections` never writes any table. -/
theorem getProposalWithSections_state_eq (ctx : Option User) (gid : String) (st : DB) :
    (getProposalWithSections ctx gid st).2.1 = st := by
  cases ctx with
  | none => rfl
  | some u =>
    cases hf : st.proposals.find? (proposalOwnedMatch gid u.id) with
    | none => simp [getProposalWithSections, requireUser, hf]
    | some q => simp [getProposalWithSections, requireUser, hf]

/-- The `createProposal` action preserves non-empty titles. -/
theorem createProposalAction_titles (now : Nat) (genId : String) (ctx : Option User)
    (ci : CreateProposalInput) (st : DB) (hinv : titlesNonEmpty st) :
    titlesNonEmpty (createProposalAction now genId ctx ci st).2.1 := by
  unfold createProposalAction
  by_cases hv : createProposalIssues ci = []
  · rw [if_pos hv]
    have hti : 1 ≤ ci.title.length := by
      by_contra hti
      unfold createProposalIssues at hv
      rw [if_neg hti] at hv
      exact absurd hv (by decide)
    cases ctx with
    | none => exact hinv
    | some u =>
      intro p hp
      simp [createProposal, requireUser] at hp
      rcases hp with hp | hp
      · exact hinv p hp
      · rw [hp]
        exact string_len_pos_ne_empty hti
  · rw [if_neg hv]
    exact hinv

/-- The `updateProposal` action preserves non-empty titles. -/
theorem updateProposalAction_titles (now : Nat) (ctx : Option User)
    (ui : UpdateProposalInput) (st : DB) (hinv : titlesNonEmpty st) :
    titlesNonEmpty (updateProposalAction now ctx ui st).2.1 := by
  unfold updateProposalAction
  by_cases hv : updateProposalIssues ui = []
  · rw [if_pos hv]
    have htitle : ∀ t, ui.title = some t → t ≠ "" := by
      intro t ht h0
      unfold updateProposalIssues at hv
      simp only [ht, h0] at hv
      exact absurd hv (by decide)
    cases ctx with
    | none => exact hinv
    | some u =>
      cases hf : st.proposals.find? (proposalOwnedMatch ui.id u.id) with
      | none =>
        exact titlesNonEmpty_of_proposals_eq (by simp [updateProposal, requireUser, hf]) hinv
      | some ex =>
        by_cases hce : ui.changeSetEmpty = true
        · exact titlesNonEmpty_of_proposals_eq
            (by simp [updateProposal, requireUser, hf, hce]) hinv
        · intro p hp
          simp [updateProposal, requireUser, hf, hce, List.mem_map] at hp
          obtain ⟨q, hq, hqe⟩ := hp
          by_cases hc : proposalOwnedMatch ui.id u.id q = true
          · rw [if_pos hc] at hqe
            rw [← hqe]
            show (ui.title.getD q.title) ≠ ""
            cases ht : ui.title with
            | none => simpa using hinv q hq
            | some t => simpa using htitle t ht
          · rw [if_neg hc] at hqe
            rw [← hqe]
            exact hinv q hq
  · rw [if_neg hv]
    exact hinv

/-- `deleteProposal` preserves non-empty titles. -/
theorem deleteProposal_titles (ctx : Option User) (pid : String) (st : DB)
    (hinv : titlesNonEmpty st) : titlesNonEmpty (deleteProposal ctx pid st).2.1 := by
  cases ctx with
  | none => exact hinv
  | some u =>
    cases hd : (st.proposals.filter (proposalOwnedMatch pid u.id)).head? with
    | none =>
      intro p hp
      simp [deleteProposal, requireUser, hd, List.mem_filter] at hp
      exact hinv p hp.1
    | some d =>
      intro p hp
      simp [deleteProposal, requireUser, hd, List.mem_filter] at hp
      exact hinv p hp.1

/-- The `saveSection` action preserves non-empty titles. -/
theorem saveSectionAction_titles (now : Nat) (ctx : Option User)
    (si : SaveSectionInput) (st : DB) (hinv : titlesNonEmpty st) :
    titlesNonEmpty (saveSectionAction now ctx si st).2.1 := by
  unfold saveSectionAction
  by_cases hv : saveSectionIssues si = []
  · rw [if_pos hv]
    exact titlesNonEmpty_of_proposals_eq (saveSection_proposals_eq now ctx si st) hinv
  · rw [if_neg hv]
    exact hinv

/-- C10: the invariant that every persisted proposal title is non-empty is
preserved by all seven operations; `createProposal` rejects an empty title
and `updateProposal` rejects an explicitly supplied empty title, both with a
`Validation` failure, an untouched state and no persistence-engine call. -/
theorem titleInvariantPreserved (now : Nat) (genId : String) (ctx : Option User)
    (st : DB) (hinv : titlesNonEmpty st)
    (ci : CreateProposalInput) (ui : UpdateProposalInput) (si : SaveSectionInput)
    (di : DeleteSectionInput) (pid gid : String) :
    titlesNonEmpty (createProposalAction now genId ctx ci st).2.1 ∧
    titlesNonEmpty (updateProposalAction now ctx ui st).2.1 ∧
    titlesNonEmpty (listProposals ctx st).2.1 ∧
    titlesNonEmpty (deleteProposal ctx pid st).2.1 ∧
    titlesNonEmpty (saveSectionAction now ctx si st).2.1 ∧
    titlesNonEmpty (deleteSection ctx di st).2.1 ∧
    titlesNonEmpty (getProposalWithSections ctx gid st).2.1 ∧
    (ci.title = "" → createProposalAction now genId ctx ci st =
      (.error (.validation ["Title is required"]), st, [])) ∧
    (ui.title = some "" → updateProposalAction now ctx ui st =
      (.error (.validation ["String must contain at least 1 character(s)"]), st, [])) := by
  refine ⟨createProposalAction_titles now genId ctx ci st hinv,
    updateProposalAction_titles now ctx ui st hinv,
    ?_,
    deleteProposal_titles ctx pid st hinv,
    saveSectionAction_titles now ctx si st hinv,
    titlesNonEmpty_of_proposals_eq (deleteSection_proposals_eq ctx di st) hinv,
    titlesNonEmpty_of_proposals_eq
      (by rw [getProposalWithSections_state_eq ctx gid st]) hinv,
    ?_, ?_⟩
  · cases ctx <;> exact hinv
  · intro h
    unfold createProposalAction createProposalIssues
    rw [h, if_neg (by decide : ¬ 1 ≤ String.length "")]
    rfl
  · intro h
    unfold updateProposalAction updateProposalIssues
    simp only [h]
    rw [if_neg (by decide : ¬ 1 ≤ String.length "")]
    rfl

/-- A `createProposal` input with an empty title. -/
def ciBad : CreateProposalInput :=
  { id := none, title := "", clientName := none, projectName := none, currency := none
    estimatedValue := none, status := none, notes := none }

/-- An `updateProposal` input explicitly supplying an empty title. -/
def uiBadTitle : UpdateProposalInput :=
  { id := "p1", title := some "", clientName := none, projectName := none, currency := none
    estimatedValue := none, status := none, notes := none }

/-- C10 witness: on the concrete store `stA` (whose titles are non-empty)
the invariant survives a concrete create, and the two empty-title inputs are
rejected with `Validation`, no state change and no engine call. -/
theorem titleInvariantPreserved_witness :
    titlesNonEmpty (createProposalAction 7 "gen-1" (some uA) ciBad stA).2.1 ∧
    createProposalAction 7 "gen-1" (some uA) ciBad stA =
      (.error (.validation ["Title is required"]), stA, []) ∧
    updateProposalAction 7 (some uA) uiBadTitle stA =
      (.error (.validation ["String must contain at least 1 character(s)"]), stA, []) := by
  have h := titleInvariantPreserved 7 "gen-1" (some uA) stA
    (by intro p hp; simp [stA, proposalA] at hp; rw [hp]; decide)
    ciBad uiBadTitle siBad ⟨"s1", "p1"⟩ "p1" "p1"
  exact ⟨h.1, h.2.2.2.2.2.2.2.1 rfl, h.2.2.2.2.2.2.2.2 rfl⟩

end ProposalWriter
